import Mathlib

/-!
# Verification of the Airlock meta-tools token benchmark

Shallow embedding of the token-accounting and comparison engine of the
`airlock-benchmark` repository (`src/benchmark.ts`, `src/token-counter.ts`,
`src/benchmark-live.ts`), together with proofs settling the frozen claims
about it.

Modelling conventions:
* JavaScript numbers are modelled exactly: integer quantities as `Nat`/`Int`,
  fractional quantities (`percentageSaved`, dollar costs) as `ℚ`, and
  `Math.ceil` as the exact rational ceiling `⌈·⌉`.
* JavaScript strings are Lean `String`s; the ASCII character classes of the
  regexes (`[a-z]`, `[A-Z]`, `[a-zA-Z0-9]`, `\s`) are modelled by the
  corresponding ASCII predicates.
* JavaScript objects used as ordered string-keyed maps (`spec.paths`,
  `properties`) are modelled as association lists with JavaScript's
  insertion-order/overwrite assignment semantics.
-/

set_option maxRecDepth 10000

namespace Airlock

/-! ## Token Estimator (heuristic strategy)

Embeds `countTokens` from `src/benchmark-live.ts` (lines 97–109): the default
heuristic strategy of the Token Estimator. -/

/-- The "structural" characters counted by the regex `[{}\[\]:,"]`. -/
def structuralChars : List Char := ['\x7b', '\x7d', '[', ']', ':', ',', '"']

/-- Occurrences of structural characters in `text`
(`text.match(/[{}\[\]:,"]/g).length`). -/
def structuralCount (text : String) : Nat :=
  text.data.countP (fun c => structuralChars.contains c)

/-- The ASCII whitespace characters matched by the regex class `\s`. -/
def jsWhitespace (c : Char) : Bool :=
  c == ' ' || c == '\t' || c == '\n' || c == '\r' || c == '\x0b' || c == '\x0c'

/-- camelCase splitting: `text.replace(/([a-z])([A-Z])/g, '$1 $2')`.
A global regex match consumes both characters, so scanning resumes after the
matched uppercase letter. -/
def camelSplit : List Char → List Char
  | [] => []
  | [c] => [c]
  | c1 :: c2 :: rest =>
    if c1.isLower && c2.isUpper then c1 :: ' ' :: c2 :: camelSplit rest
    else c1 :: camelSplit (c2 :: rest)

/-- Models `text.replace(/[^a-zA-Z0-9\s]/g, ' ')` applied characterwise. -/
def replaceNonWord (c : Char) : Char :=
  if c.isAlphanum || jsWhitespace c then c else ' '

/-- Split a character list at whitespace characters.  Chunks between
consecutive separators are empty; the benchmark filters empty fragments
afterwards, which makes this agree with JavaScript `split(/\s+/)`. -/
def splitWsAux : List Char → List Char → List (List Char)
  | [], acc => [acc.reverse]
  | c :: rest, acc =>
    if jsWhitespace c then acc.reverse :: splitWsAux rest []
    else splitWsAux rest (c :: acc)

/-- Models `split(/\s+/)` up to empty fragments (which are discarded by the
`.filter((w) => w.length > 0)` step that always follows). -/
def splitWs (cs : List Char) : List (List Char) := splitWsAux cs []

/-- The non-empty word fragments of `text` after camelCase splitting and
replacement of non-alphanumeric characters by whitespace. -/
def wordFragments (text : String) : List (List Char) :=
  (splitWs ((camelSplit text.data).map replaceNonWord)).filter
    (fun w => w.length > 0)

/-- Number of word-like tokens `words.length`. -/
def wordCount (text : String) : Nat := (wordFragments text).length

/-- Models `countTokens` from `src/benchmark-live.ts`: the heuristic token estimate.
`Math.ceil` is modelled as the exact rational ceiling. -/
def countTokens (text : String) : Int :=
  let structural := structuralCount text
  let words := wordCount text
  let estimate : Int := ⌈(structural : ℚ) * 0.5 + (words : ℚ) * 1.3⌉
  let simpleEstimate : Int := ⌈(text.length : ℚ) / 4⌉
  ⌈((estimate : ℚ) + (simpleEstimate : ℚ)) / 2⌉

/-! ## Token Estimator (exact strategy)

`countTokens` from `src/token-counter.ts` returns `enc.encode(text).length`
for the lazily created tiktoken encoder.  The external `encode` function of
the tiktoken library is a parameter of the embedding. -/

/-- Models `countTokens` of `src/token-counter.ts`: length of the encoder's token
sequence for `text`. -/
def exactCountTokens (encode : String → List Nat) (text : String) : Int :=
  ((encode text).length : Int)

/-! ## JSON values and `JSON.stringify(·, null, 2)`

The benchmark measures each tool definition by pretty-printing it as JSON
with two-space indentation and feeding the text to the token estimator
(`countToolTokens` in `src/token-counter.ts`).  The values appearing in tool
definitions are strings, booleans, arrays and objects (no numbers or nulls
occur), with object keys kept in insertion order as JavaScript does. -/

inductive Json where
  | str (s : String)
  | bool (b : Bool)
  | arr (elems : List Json)
  | obj (fields : List (String × Json))
  deriving Repr

/-- JSON string escaping for the characters that occur in this repository's
tool definitions (`"` and `\`; no control characters occur). -/
def jsonEscapeChar (c : Char) : List Char :=
  if c = '"' then ['\\', '"']
  else if c = '\\' then ['\\', '\\'] else [c]

def jsonQuote (s : String) : String :=
  "\"" ++ String.mk (s.data.flatMap jsonEscapeChar) ++ "\""

/-- Two-space indentation at nesting depth `d`. -/
def jsonPad (d : Nat) : String := String.mk (List.replicate (2 * d) ' ')

mutual
/-- Models `JSON.stringify(v, null, 2)` at nesting depth `d`. -/
def jsonRender : Json → Nat → String
  | .str s, _ => jsonQuote s
  | .bool b, _ => if b then "true" else "false"
  | .arr [], _ => "[]"
  | .arr (e :: es), d =>
    "[\n" ++ jsonRenderItems (e :: es) (d + 1) ++ "\n" ++ jsonPad d ++ "]"
  | .obj [], _ => "\x7b\x7d"
  | .obj (f :: fs), d =>
    "\x7b\n" ++ jsonRenderFields (f :: fs) (d + 1) ++ "\n" ++ jsonPad d ++ "\x7d"

def jsonRenderItems : List Json → Nat → String
  | [], _ => ""
  | [e], d => jsonPad d ++ jsonRender e d
  | e :: e2 :: es, d =>
    jsonPad d ++ jsonRender e d ++ ",\n" ++ jsonRenderItems (e2 :: es) d

def jsonRenderFields : List (String × Json) → Nat → String
  | [], _ => ""
  | [(k, v)], d => jsonPad d ++ jsonQuote k ++ ": " ++ jsonRender v d
  | (k, v) :: f2 :: fs, d =>
    jsonPad d ++ jsonQuote k ++ ": " ++ jsonRender v d ++ ",\n" ++
      jsonRenderFields (f2 :: fs) d
end

/-- Models `JSON.stringify(v, null, 2)`. -/
def jsonStringify (v : Json) : String := jsonRender v 0

/-! ## Canonical tool-definition records -/

/-- Models `MCPTool` from `src/benchmark.ts`: the canonical tool-definition record. -/
structure MCPTool where
  name : String
  description : String
  inputSchema : Json
  deriving Repr

/-- The JSON object serialized by `JSON.stringify(tool, null, 2)`:
keys in declaration order `name`, `description`, `inputSchema`. -/
def MCPTool.toJson (t : MCPTool) : Json :=
  .obj [("name", .str t.name), ("description", .str t.description),
        ("inputSchema", t.inputSchema)]

/-- Models `countToolTokens` with the heuristic estimator: pretty-print the tool as
JSON and estimate the text. -/
def countToolTokens (t : MCPTool) : Int :=
  countTokens (jsonStringify t.toJson)

/-! ## Fixed Indirection Tool Set

`META_TOOLS` from `src/benchmark.ts` (lines 75–141): the constant list of
exactly four meta-tool definitions. -/

def listServicesTool : MCPTool :=
  { name := "list_services"
    description := "List all connected services/projects in the organization. Returns service names, slugs, tool counts, and sample tools."
    inputSchema := .obj
      [("type", .str "object"), ("properties", .obj []), ("required", .arr [])] }

def searchToolsTool : MCPTool :=
  { name := "search_tools"
    description := "Search for tools by keyword across all connected services. Returns matching tools with names, descriptions, and project info."
    inputSchema := .obj
      [("type", .str "object"),
       ("properties", .obj
         [("query", .obj
            [("type", .str "string"),
             ("description", .str "Search query to match against tool names and descriptions")]),
          ("limit", .obj
            [("type", .str "number"),
             ("description", .str "Maximum number of results to return (default: 20)")])]),
       ("required", .arr [.str "query"])] }

def describeToolsTool : MCPTool :=
  { name := "describe_tools"
    description := "Get detailed information and input schemas for specific tools. Use after search_tools to get full schemas before executing."
    inputSchema := .obj
      [("type", .str "object"),
       ("properties", .obj
         [("tools", .obj
            [("type", .str "array"),
             ("items", .obj [("type", .str "string")]),
             ("description", .str "Array of tool names to describe (use namespaced format: project-slug/tool-name)")])]),
       ("required", .arr [.str "tools"])] }

def executeToolTool : MCPTool :=
  { name := "execute_tool"
    description := "Execute a tool from any connected service in the organization. Use namespaced format: \"project-slug/tool-name\"."
    inputSchema := .obj
      [("type", .str "object"),
       ("properties", .obj
         [("tool", .obj
            [("type", .str "string"),
             ("description", .str "The namespaced tool name (e.g., \"linear/create_issue\", \"github/create_pr\")")]),
          ("arguments", .obj
            [("type", .str "object"),
             ("additionalProperties", .bool true),
             ("description", .str "Arguments to pass to the tool")])]),
       ("required", .arr [.str "tool"])] }

/-- Models `META_TOOLS`: the Fixed Indirection Tool Set. -/
def META_TOOLS : List MCPTool :=
  [listServicesTool, searchToolsTool, describeToolsTool, executeToolTool]

/-! ## Operation catalog data model

The `OpenAPISpec`/`OpenAPIOperation` shapes from `src/benchmark.ts`
(lines 24–45).  Optional fields are `Option`s; `undefined` is `none`.
Schema objects (`Record<string, unknown>`) are modelled with the four
fields the code actually reads (`type`, `enum`, `properties`, `required`). -/

structure SchemaObj where
  type : Option String := none
  enum : Option (List Json) := none
  properties : Option (List (String × Json)) := none
  required : Option (List String) := none
  deriving Repr

/-- One entry of `OpenAPIOperation.parameters`.  The source field `in` is a
Lean keyword and is rendered here as `location`. -/
structure OpenAPIParameter where
  name : String
  location : String
  required : Option Bool := none
  schema : Option SchemaObj := none
  description : Option String := none
  deriving Repr

structure RequestBodyContent where
  schema : Option SchemaObj := none
  deriving Repr

structure RequestBody where
  required : Option Bool := none
  content : Option (List (String × RequestBodyContent)) := none
  deriving Repr

structure OpenAPIOperation where
  operationId : Option String := none
  summary : Option String := none
  description : Option String := none
  parameters : Option (List OpenAPIParameter) := none
  requestBody : Option RequestBody := none
  deriving Repr

structure OpenAPIInfo where
  title : String
  version : String
  description : Option String := none
  deriving Repr

/-- Models `spec.paths` is a JavaScript object: an ordered map from path template to
an ordered map from HTTP verb to operation, modelled as association lists in
insertion order. -/
structure OpenAPISpec where
  openapi : String
  info : OpenAPIInfo
  paths : List (String × List (String × OpenAPIOperation))
  deriving Repr

/-! ## Operation Catalog Normalizer

`openApiToMcpTools` from `src/benchmark.ts` (lines 147–201). -/

/-- JavaScript `a || b` for an optional string: the empty string is falsy. -/
def strOr (o : Option String) (fallback : String) : String :=
  match o with
  | some s => if s = "" then fallback else s
  | none => fallback

/-- Models `path.replace(/[^a-zA-Z0-9]/g, '_')`. -/
def sanitizePath (path : String) : String :=
  String.mk (path.data.map (fun c => if c.isAlphanum then c else '_'))

/-- Models `s.toUpperCase()` (ASCII). -/
def upperStr (s : String) : String :=
  String.mk (s.data.map Char.toUpper)

/-- JavaScript ordered-map assignment `obj[k] = v`: overwrite in place if the
key exists, otherwise append. -/
def objSet (fields : List (String × Json)) (k : String) (v : Json) :
    List (String × Json) :=
  if fields.any (fun f => f.1 = k) then
    fields.map (fun f => if f.1 = k then (k, v) else f)
  else fields ++ [(k, v)]

/-- The `properties[param.name]` value built for one declared parameter:
`type` (default `"string"`), `description` (default `"{name} parameter"`),
and `enum` copied through when present. -/
def paramProperty (p : OpenAPIParameter) : Json :=
  .obj ([("type", .str (strOr (p.schema.bind SchemaObj.type) "string")),
         ("description", .str (strOr p.description (p.name ++ " parameter")))] ++
        (match p.schema.bind SchemaObj.enum with
         | some es => [("enum", .arr es)]
         | none => []))

/-- Processing of one declared parameter: add its property entry and, when
marked required, push its name. -/
def addParam (acc : List (String × Json) × List String) (p : OpenAPIParameter) :
    List (String × Json) × List String :=
  (objSet acc.1 p.name (paramProperty p),
   if p.required.getD false then acc.2 ++ [p.name] else acc.2)

/-- Merging of the `application/json` request-body schema: `Object.assign`
its `properties` and append its `required` names. -/
def addBody (acc : List (String × Json) × List String) (op : OpenAPIOperation) :
    List (String × Json) × List String :=
  match op.requestBody with
  | none => acc
  | some rb =>
    match rb.content with
    | none => acc
    | some content =>
      match (content.find? (fun c => c.1 = "application/json")).map Prod.snd with
      | none => acc
      | some mc =>
        match mc.schema with
        | none => acc
        | some schema =>
          let props := match schema.properties with
            | some ps => ps.foldl (fun fs kv => objSet fs kv.1 kv.2) acc.1
            | none => acc.1
          let req := match schema.required with
            | some rs => acc.2 ++ rs
            | none => acc.2
          (props, req)

/-- Models `[...new Set(required)]`: de-duplication keeping first occurrences. -/
def dedupFirst (xs : List String) : List String :=
  xs.foldl (fun acc x => if x ∈ acc then acc else acc ++ [x]) []

/-- The tool pushed for one `(path, method, operation)` entry. -/
def mkTool (path method : String) (op : OpenAPIOperation) : MCPTool :=
  let pr := addBody
    (match op.parameters with
     | some ps => ps.foldl addParam ([], [])
     | none => ([], [])) op
  { name := strOr op.operationId (method ++ "_" ++ sanitizePath path)
    description := strOr op.description
      (strOr op.summary (upperStr method ++ " " ++ path))
    inputSchema := .obj [("type", .str "object"), ("properties", .obj pr.1),
                         ("required", .arr ((dedupFirst pr.2).map .str))] }

/-- Models `openApiToMcpTools`: one tool per `(path, verb)` entry, skipping the
verb-less `parameters` block. -/
def openApiToMcpTools (spec : OpenAPISpec) : List MCPTool :=
  spec.paths.flatMap (fun pe =>
    pe.2.filterMap (fun me =>
      if me.1 = "parameters" then none
      else some (mkTool pe.1 me.1 me.2)))

/-! ## Spec loading

`loadSampleSpecs` from `src/benchmark.ts` (lines 207–226).  Reading and
parsing one catalog document either yields a spec or throws; a document that
fails is a `none` input.  The single `try`/`catch` wraps the whole loop, so
the first failure ends the loop: the specs accumulated so far are returned
and a warning is printed (the returned flag). -/

def loadSampleSpecsAux (acc : List (String × OpenAPISpec)) :
    List (Option OpenAPISpec) → List (String × OpenAPISpec) × Bool
  | [] => (acc, false)
  | some spec :: rest => loadSampleSpecsAux (acc ++ [(spec.info.title, spec)]) rest
  | none :: _ => (acc, true)

/-- Models `loadSampleSpecs`, as a function of the load/parse result of each file in
the sample-specs directory (in directory order). -/
def loadSampleSpecs (files : List (Option OpenAPISpec)) :
    List (String × OpenAPISpec) × Bool :=
  loadSampleSpecsAux [] files

/-! ## Synthetic Catalog Generator

`generateSyntheticSpec` from `src/benchmark.ts` (lines 228–288). -/

def digitChar (n : Nat) : Char := Char.ofNat (48 + n)

/-- Decimal digits of `n`, most significant first (the rendering of a
non-negative integer in a JavaScript template literal). -/
def natDigits (n : Nat) : List Char :=
  if h : n < 10 then [digitChar n]
  else natDigits (n / 10) ++ [digitChar (n % 10)]
termination_by n
decreasing_by exact Nat.div_lt_self (by omega) (by omega)

def natToString (n : Nat) : String := String.mk (natDigits n)

/-- Models `` `resource${Math.floor(i / 5)}` ``. -/
def synResource (i : Nat) : String := "resource" ++ natToString (i / 5)

/-- The path template of resource group `r` and shape index `s`. -/
def synPathOf (r : Nat) : Nat → String
  | 0 => "/resource" ++ natToString r
  | 1 => "/resource" ++ natToString r ++ "/\x7bid\x7d"
  | 2 => "/resource" ++ natToString r ++ "/\x7bid\x7d/details"
  | 3 => "/resource" ++ natToString r ++ "/\x7bid\x7d/actions"
  | _ => "/resource" ++ natToString r ++ "/search"

/-- Models `pathTemplates[i % 5]` (with `resource = resource⌊i/5⌋`). -/
def synPath (i : Nat) : String := synPathOf (i / 5) (i % 5)

/-- Models `methods[k]` for `k < 5`. -/
def synMethodOf : Nat → String
  | 0 => "get"
  | 1 => "post"
  | 2 => "put"
  | 3 => "patch"
  | _ => "delete"

/-- Models `methods[i % methods.length]` with `methods = [get, post, put, patch,
delete]`. -/
def synMethod (i : Nat) : String := synMethodOf (i % 5)

/-- The fixed-shape JSON request-body schema given to `post`/`put`/`patch`
operations. -/
def synBodySchema : SchemaObj :=
  { type := some "object"
    properties := some
      [("name", .obj [("type", .str "string")]),
       ("description", .obj [("type", .str "string")]),
       ("status", .obj [("type", .str "string"),
                        ("enum", .arr [.str "active", .str "inactive"])])]
    required := some ["name"] }

/-- Models `haystack.includes(needle)`: substring containment. -/
def hasInfix (needle : List Char) : List Char → Bool
  | [] => needle.isEmpty
  | c :: rest => needle.isPrefixOf (c :: rest) || hasInfix needle rest

/-- The operation synthesized at index `i`. -/
def synOp (i : Nat) : OpenAPIOperation :=
  let method := synMethod i
  let resource := synResource i
  { operationId := some (method ++ "_" ++ resource ++ "_" ++ natToString (i % 5))
    summary := some (upperStr method ++ " operation for " ++ resource)
    description := some ("Performs a " ++ method ++ " operation on the " ++
      resource ++ " resource.")
    parameters := some
      (if hasInfix "\x7bid\x7d".data (synPath i).data then
        [{ name := "id", location := "path", required := some true,
           schema := some { type := some "string" } }]
      else [])
    requestBody :=
      if method = "post" ∨ method = "put" ∨ method = "patch" then
        some { required := some true
               content := some [("application/json", { schema := some synBodySchema })] }
      else none }

/-- Inner-map assignment for `paths[path][method] = op`. -/
def setVerb (inner : List (String × OpenAPIOperation)) (method : String)
    (op : OpenAPIOperation) : List (String × OpenAPIOperation) :=
  if inner.any (fun me => me.1 = method) then
    inner.map (fun me => if me.1 = method then (method, op) else me)
  else inner ++ [(method, op)]

/-- Models `if (!paths[path]) paths[path] = {}; paths[path][method] = op`. -/
def setOp (paths : List (String × List (String × OpenAPIOperation)))
    (path method : String) (op : OpenAPIOperation) :
    List (String × List (String × OpenAPIOperation)) :=
  if paths.any (fun pe => pe.1 = path) then
    paths.map (fun pe => if pe.1 = path then (pe.1, setVerb pe.2 method op) else pe)
  else paths ++ [(path, [(method, op)])]

/-- The `paths` record built by the generator loop `for i in 0..endpointCount`. -/
def synPaths (endpointCount : Nat) :
    List (String × List (String × OpenAPIOperation)) :=
  (List.range endpointCount).foldl
    (fun ps i => setOp ps (synPath i) (synMethod i) (synOp i)) []

/-- Models `generateSyntheticSpec(endpointCount)`. -/
def generateSyntheticSpec (endpointCount : Nat) : OpenAPISpec :=
  { openapi := "3.0.3"
    info := { title := "Synthetic API (" ++ natToString endpointCount ++ " endpoints)"
              version := "1.0.0" }
    paths := synPaths endpointCount }

/-! ## Cost Model / Comparator

`runBenchmark` from `src/benchmark.ts` (lines 294–327), parametric in the
active Token Estimator strategy `est` (the Cost Model is agnostic to which
strategy is active). -/

structure BenchmarkResult where
  scenario : String
  projectCount : Nat
  totalTools : Nat
  metaToolsTokens : Int
  fullExpansionTokens : Int
  tokensSaved : Int
  percentageSaved : ℚ
  costSavedPerReq : ℚ
  monthlySaved : ℚ
  deriving Repr

def COST_PER_MILLION_TOKENS : ℚ := 3
def MONTHLY_REQUESTS_PER_USER : Nat := 1000

/-- Models `META_TOOLS.reduce((sum, tool) => sum + countToolTokens(tool), 0)`. -/
def metaToolsTokensSum (est : MCPTool → Int) : Int :=
  META_TOOLS.foldl (fun sum tool => sum + est tool) 0

/-- Models `runBenchmark(scenario, specs)` with token estimator `est`. -/
def runBenchmark (est : MCPTool → Int) (scenario : String)
    (specs : List (String × OpenAPISpec)) : BenchmarkResult :=
  let metaToolsTokens := metaToolsTokensSum est
  let acc := specs.foldl (fun acc ns =>
      let tools := openApiToMcpTools ns.2
      (acc.1 + tools.length, acc.2 + tools.foldl (fun s t => s + est t) 0))
    ((0 : Nat), (0 : Int))
  let tokensSaved := acc.2 - metaToolsTokens
  { scenario
    projectCount := specs.length
    totalTools := acc.1
    metaToolsTokens
    fullExpansionTokens := acc.2
    tokensSaved
    percentageSaved :=
      if acc.2 > 0 then ((tokensSaved : ℚ) / (acc.2 : ℚ)) * 100 else 0
    costSavedPerReq := ((tokensSaved : ℚ) / 1000000) * COST_PER_MILLION_TOKENS
    monthlySaved := (((tokensSaved : ℚ) / 1000000) * COST_PER_MILLION_TOKENS) *
      (MONTHLY_REQUESTS_PER_USER : ℚ) }

/-! ## Fair multi-step accounting

Static path: the fair-comparison block of `printTerminal` in
`src/benchmark.ts` (lines 436–449).  Live path: the fair-comparison
computation of `runLiveBenchmark` in `src/benchmark-live.ts`. -/

/-- Models `searchDescribeOverhead` (static path): approximate tokens for the search
and describe responses. -/
def SEARCH_DESCRIBE_OVERHEAD : Int := 300

/-- Models `metaWorkflowTotal` of the static fair comparison:
`largeOrg.metaToolsTokens * 3 + searchDescribeOverhead`. -/
def staticMetaWorkflowTotal (metaToolsTokens : Int) : Int :=
  metaToolsTokens * 3 + SEARCH_DESCRIBE_OVERHEAD

/-- The hard-coded meta-tools token constant of `src/benchmark-live.ts`. -/
def META_TOOLS_TOKENS : Int := 426

/-- The hard-coded live-path average tokens per tool. -/
def AVG_TOKENS_PER_TOOL : Int := 140

structure FairComparison where
  metaToolsWorkflow : Int
  fullExpansion : Int
  difference : Int
  percentageSaved : ℚ
  deriving Repr

/-- The fair-comparison record computed by `runLiveBenchmark` from the three
measured response texts and the reported total tool count. -/
def liveFairComparison (listServicesText searchToolsText describeToolsText :
    String) (totalTools : Nat) : FairComparison :=
  let listServicesTokens := countTokens listServicesText
  let searchToolsTokens := countTokens searchToolsText
  let describeToolsTokens := countTokens describeToolsText
  let fullExpansionEstimate := (totalTools : Int) * AVG_TOKENS_PER_TOOL
  let metaToolsWorkflow := META_TOOLS_TOKENS * 3 + listServicesTokens +
    searchToolsTokens + describeToolsTokens
  let difference := fullExpansionEstimate - metaToolsWorkflow
  { metaToolsWorkflow
    fullExpansion := fullExpansionEstimate
    difference
    percentageSaved :=
      if fullExpansionEstimate > 0 then
        ((difference : ℚ) / (fullExpansionEstimate : ℚ)) * 100
      else 0 }

/-! ## Exact-tokenizer encoder lifecycle

`getEncoder`/`freeEncoder` from `src/token-counter.ts`.  The module-level
`encoder` variable is the state (`none` when no encoder exists); a live
tiktoken encoder is abstracted as a `Nat` handle, and `fresh` is the handle
`get_encoding('cl100k_base')` would allocate. -/

/-- Models `getEncoder()`: returns the encoder and the updated stored reference. -/
def getEncoder (st : Option Nat) (fresh : Nat) : Nat × Option Nat :=
  match st with
  | some e => (e, some e)
  | none => (fresh, some fresh)

/-- Models `freeEncoder()`: returns the updated stored reference and whether the
underlying `encoder.free()` release operation ran. -/
def freeEncoder (st : Option Nat) : Option Nat × Bool :=
  match st with
  | some _ => (none, true)
  | none => (none, false)

/-! ## Integer closed form of the heuristic estimator

The rational ceilings of `countTokens` collapse to natural-number divisions;
this closed form is what concrete evaluations compute with. -/

/-- The heuristic estimate as pure natural-number arithmetic. -/
def countTokensNat (text : String) : Nat :=
  ((5 * structuralCount text + 13 * wordCount text + 9) / 10 +
    (text.length + 3) / 4 + 1) / 2

lemma ceil_natCast_div (a d : Nat) (hd : 0 < d) :
    ⌈(a : ℚ) / (d : ℚ)⌉ = (((a + d - 1) / d : Nat) : ℤ) := by
  have hdq : (0 : ℚ) < (d : ℚ) := by exact_mod_cast hd
  have h1 : ((a + d - 1) / d) * d ≤ a + d - 1 := Nat.div_mul_le_self _ _
  have h1' : ((a + d - 1) / d) * d + 1 ≤ a + d := by
    have h := Nat.succ_le_succ h1
    rwa [Nat.succ_eq_add_one, Nat.succ_eq_add_one,
      Nat.sub_add_cancel (by omega : 1 ≤ a + d)] at h
  have h2 : a ≤ ((a + d - 1) / d) * d := by
    have hdm := Nat.div_add_mod (a + d - 1) d
    have hlt : (a + d - 1) % d < d := Nat.mod_lt _ hd
    have h3 : a + d - 1 < d * ((a + d - 1) / d) + d := by omega
    have h4 : a + d ≤ d * ((a + d - 1) / d) + d := by omega
    have h5 := Nat.le_of_add_le_add_right h4
    rwa [Nat.mul_comm] at h5
  set q := (a + d - 1) / d with hq
  rw [Int.ceil_eq_iff]
  refine ⟨?_, ?_⟩
  · rw [Int.cast_natCast, lt_div_iff₀ hdq]
    have hc : (q : ℚ) * (d : ℚ) + 1 ≤ (a : ℚ) + (d : ℚ) := by exact_mod_cast h1'
    nlinarith [hc]
  · rw [Int.cast_natCast, div_le_iff₀ hdq]
    exact_mod_cast h2

lemma countTokens_eq_natFormula (text : String) :
    countTokens text = ((countTokensNat text : ℕ) : ℤ) := by
  rw [show countTokens text =
      ⌈(((⌈(structuralCount text : ℚ) * 0.5 + (wordCount text : ℚ) * 1.3⌉ : ℤ) : ℚ) +
        ((⌈(text.length : ℚ) / 4⌉ : ℤ) : ℚ)) / 2⌉ from rfl]
  have e1 : (structuralCount text : ℚ) * 0.5 + (wordCount text : ℚ) * 1.3 =
      ((5 * structuralCount text + 13 * wordCount text : ℕ) : ℚ) / ((10 : ℕ) : ℚ) := by
    push_cast
    norm_num
    ring
  have e2 : (text.length : ℚ) / (4 : ℚ) =
      ((text.length : ℕ) : ℚ) / ((4 : ℕ) : ℚ) := by norm_num
  rw [e1, e2, ceil_natCast_div _ 10 (by norm_num), ceil_natCast_div _ 4 (by norm_num)]
  set n1 := (5 * structuralCount text + 13 * wordCount text + 10 - 1) / 10 with hn1
  set n2 := (text.length + 4 - 1) / 4 with hn2
  rw [Int.cast_natCast, Int.cast_natCast]
  have e3 : (n1 : ℚ) + (n2 : ℚ) = ((n1 + n2 : ℕ) : ℚ) := by push_cast; ring
  have e4 : ((n1 + n2 : ℕ) : ℚ) / (2 : ℚ) =
      ((n1 + n2 : ℕ) : ℚ) / ((2 : ℕ) : ℚ) := by norm_num
  rw [e3, e4, ceil_natCast_div _ 2 (by norm_num)]
  rw [Nat.cast_inj]
  rw [hn1, hn2]
  unfold countTokensNat
  omega

/-- Models `countToolTokens` rewritten through the integer closed form, for concrete
kernel evaluation. -/
lemma countToolTokens_eq_natFormula :
    countToolTokens = fun t => ((countTokensNat (jsonStringify t.toJson) : ℕ) : ℤ) :=
  funext fun _ => countTokens_eq_natFormula _

/-! ## Claims about the Token Estimator -/

/-- Claim C4: for every input string `text`, the heuristic token estimator
returns exactly `⌈(⌈S·0.5 + W·1.3⌉ + ⌈length(text)/4⌉) / 2⌉`, where `S` is
the number of structural characters `{ } [ ] : , "` in `text` and `W` is the
number of non-empty word fragments after camelCase boundary insertion,
replacement of non-alphanumeric characters by whitespace, and whitespace
splitting. -/
theorem countTokens_heuristic_formula (text : String) :
    countTokens text =
      ⌈(((⌈(structuralCount text : ℚ) * 0.5 + (wordCount text : ℚ) * 1.3⌉ : ℤ) : ℚ) +
        ((⌈(text.length : ℚ) / 4⌉ : ℤ) : ℚ)) / 2⌉ := rfl

/-- Claim C7: for every string, `estimate(text)` is a non-negative integer and
`estimate("") = 0`, for the heuristic strategy and for the exact-tokenizer
strategy (whose count is the length of the external encoder's token
sequence; an encoder mapping `""` to the empty sequence yields `0`). -/
theorem estimate_nonneg_and_empty_zero :
    (∀ text : String, 0 ≤ countTokens text) ∧ countTokens "" = 0 ∧
    (∀ (encode : String → List Nat) (text : String),
      0 ≤ exactCountTokens encode text) ∧
    (∀ encode : String → List Nat, encode "" = [] →
      exactCountTokens encode "" = 0) := by
  refine ⟨fun text => ?_, ?_, fun encode text => ?_, fun encode h => ?_⟩
  · rw [countTokens_eq_natFormula]
    exact Int.natCast_nonneg _
  · rw [countTokens_eq_natFormula]
    decide
  · exact Int.natCast_nonneg _
  · simp [exactCountTokens, h]

/-- Witness for **C7** at concrete inputs. -/
theorem estimate_nonneg_and_empty_zero_witness :
    0 ≤ countTokens "abc" ∧ exactCountTokens (fun _ => []) "" = 0 :=
  ⟨estimate_nonneg_and_empty_zero.1 "abc",
   estimate_nonneg_and_empty_zero.2.2.2 (fun _ => []) rfl⟩

/-! ## Claims about the Cost Model -/

/-- Claim C1: for a fixed Token Estimator implementation, the
`metaToolsTokens` field of the `BenchmarkResult` is the same for any two
scenario inputs — it is the sum of per-tool token counts over the four
Fixed Indirection Tool Set records and does not depend on which catalogs,
or how many, are supplied. -/
theorem metaToolsTokens_independent_of_catalogs (est : MCPTool → Int)
    (scenario1 scenario2 : String)
    (catalogs1 catalogs2 : List (String × OpenAPISpec)) :
    (runBenchmark est scenario1 catalogs1).metaToolsTokens =
      (runBenchmark est scenario2 catalogs2).metaToolsTokens ∧
    (runBenchmark est scenario1 catalogs1).metaToolsTokens =
      est listServicesTool + est searchToolsTool + est describeToolsTool +
        est executeToolTool := by
  constructor
  · rfl
  · show metaToolsTokensSum est = _
    simp [metaToolsTokensSum, META_TOOLS]

/-- Claim C9: the encoder is created lazily at most once while in use (a second
`getEncoder` returns the same instance and leaves the stored reference
unchanged), `freeEncoder` resets the stored reference to empty, and calling
`freeEncoder` with no live encoder — in particular a second consecutive call
— performs no release operation. -/
theorem encoder_lazy_singleton_idempotent_free :
    (∀ (st : Option Nat) (f1 f2 : Nat),
        (getEncoder (getEncoder st f1).2 f2).1 = (getEncoder st f1).1 ∧
        (getEncoder (getEncoder st f1).2 f2).2 = (getEncoder st f1).2) ∧
    (∀ st : Option Nat, (freeEncoder st).1 = none) ∧
    freeEncoder none = (none, false) ∧
    (∀ st : Option Nat, (freeEncoder (freeEncoder st).1).2 = false) := by
  refine ⟨fun st f1 f2 => ?_, fun st => ?_, rfl, fun st => ?_⟩ <;>
    cases st <;> simp [getEncoder, freeEncoder]

/-! ## Claims about the fair multi-step accounting -/

lemma liveFairComparison_metaToolsWorkflow (l s d : String) (n : Nat) :
    (liveFairComparison l s d n).metaToolsWorkflow =
      META_TOOLS_TOKENS * 3 + countTokens l + countTokens s + countTokens d := rfl

/-- Claim C2 (counterexample): the live-path fair workflow total is *not*
`indirectionTokens × 3 + searchResponseTokens + describeResponseTokens`: at
the concrete measured responses `"{}"`, `"{}"`, `"{}"` the code's total also
adds the list-services response, so it exceeds the claimed formula. -/
theorem liveFair_not_two_payloads :
    (liveFairComparison "\x7b\x7d" "\x7b\x7d" "\x7b\x7d" 10).metaToolsWorkflow ≠
      META_TOOLS_TOKENS * 3 + countTokens "\x7b\x7d" + countTokens "\x7b\x7d" := by
  rw [liveFairComparison_metaToolsWorkflow, countTokens_eq_natFormula]
  decide

/-- Claim C2 (amended): the live-path fair workflow total is
`indirectionTokens × 3` plus *three* response payload costs — the
list-services response, the search response and the describe response —
compared against the single `fullExpansion` exposure
(`difference = fullExpansion − metaToolsWorkflow`); the static path uses
`metaToolsTokens × 3 + 300` where the constant `300` approximates the search
and describe responses. -/
theorem fair_workflow_accounting (l s d : String) (n : Nat) (m : Int) :
    (liveFairComparison l s d n).metaToolsWorkflow =
      META_TOOLS_TOKENS * 3 + countTokens l + countTokens s + countTokens d ∧
    (liveFairComparison l s d n).fullExpansion = (n : Int) * AVG_TOKENS_PER_TOOL ∧
    (liveFairComparison l s d n).difference =
      (liveFairComparison l s d n).fullExpansion -
        (liveFairComparison l s d n).metaToolsWorkflow ∧
    staticMetaWorkflowTotal m = m * 3 + SEARCH_DESCRIBE_OVERHEAD :=
  ⟨rfl, rfl, rfl, rfl⟩

/-! ## Claims about the Normalizer's name resolution -/

/-- An operation whose `operationId` is present but empty. -/
def emptyIdOp : OpenAPIOperation := { operationId := some "" }

/-- Claim C8 (counterexample): an `operationId` that is present but empty is
*not* used as the tool name — `op.operationId || ...` treats the empty
string as falsy, so the synthesized `verb_path` name is produced instead. -/
theorem mkTool_name_ignores_empty_operationId :
    emptyIdOp.operationId = some "" ∧
    (mkTool "/a" "get" emptyIdOp).name = "get__a" ∧
    ("get__a" : String) ≠ "" := by
  refine ⟨rfl, ?_, by decide⟩
  decide

/-- Claim C8 (amended): the tool name is the operation's `operationId` whenever
a *non-empty* `operationId` is present; otherwise (absent, or present but
empty) it is the verb, an underscore, and the path template with every
non-alphanumeric character replaced by an underscore. -/
theorem mkTool_name_resolution (path method : String) (op : OpenAPIOperation) :
    (mkTool path method op).name =
      match op.operationId with
      | some oid =>
        if oid = "" then method ++ "_" ++ sanitizePath path else oid
      | none => method ++ "_" ++ sanitizePath path := by
  cases h : op.operationId with
  | none => simp [mkTool, strOr, h]
  | some oid =>
    by_cases he : oid = ""
    · subst he
      simp [mkTool, strOr, h]
    · simp [mkTool, strOr, h, he]

/-! ## Claims about the failure policy -/

lemma loadSampleSpecsAux_eq (acc : List (String × OpenAPISpec))
    (files : List (Option OpenAPISpec)) :
    loadSampleSpecsAux acc files =
      (acc ++ ((files.takeWhile Option.isSome).filterMap id).map
        (fun spec => (spec.info.title, spec)),
       files.any Option.isNone) := by
  induction files generalizing acc with
  | nil => simp [loadSampleSpecsAux]
  | cons f rest ih =>
    cases f with
    | some spec => simp [loadSampleSpecsAux, ih]
    | none => simp [loadSampleSpecsAux]

/-- A loadable catalog titled `A`. -/
def specA : OpenAPISpec :=
  { openapi := "3.0.0"
    info := { title := "A", version := "1.0.0" }
    paths := [("/a", [("get", {})])] }

/-- A loadable catalog titled `C`. -/
def specC : OpenAPISpec :=
  { openapi := "3.0.0"
    info := { title := "C", version := "1.0.0" }
    paths := [("/c", [("get", {})])] }

/-- Claim C3 (counterexample): with three catalog documents of which exactly
the second is unavailable, the loader keeps only the first catalog: the
third, perfectly loadable catalog is silently dropped along with the bad
one, so the run does not reflect all of the remaining catalogs. -/
theorem loadSampleSpecs_drops_good_catalog :
    (loadSampleSpecs [some specA, none, some specC]).2 = true ∧
    (loadSampleSpecs [some specA, none, some specC]).1.map Prod.fst = ["A"] ∧
    (loadSampleSpecs [some specA, none, some specC]).1.length ≠ 2 := by
  refine ⟨rfl, rfl, by decide⟩

/-- Claim C3 (amended): one unavailable catalog does not abort the run and a
warning is surfaced, but loading stops at the *first* failure: the returned
catalogs are exactly the prefix of successfully loaded documents before the
bad one, and every catalog after the failure is dropped as well. -/
theorem loadSampleSpecs_stops_at_first_failure (files : List (Option OpenAPISpec)) :
    loadSampleSpecs files =
      (((files.takeWhile Option.isSome).filterMap id).map
        (fun spec => (spec.info.title, spec)),
       files.any Option.isNone) := by
  rw [loadSampleSpecs, loadSampleSpecsAux_eq]
  simp

/-! ## Claims about `percentageSaved` -/

lemma runBenchmark_percentageSaved (est : MCPTool → Int) (scenario : String)
    (catalogs : List (String × OpenAPISpec)) :
    (runBenchmark est scenario catalogs).percentageSaved =
      if (runBenchmark est scenario catalogs).fullExpansionTokens > 0 then
        (((runBenchmark est scenario catalogs).tokensSaved : ℚ) /
          ((runBenchmark est scenario catalogs).fullExpansionTokens : ℚ)) * 100
      else 0 := rfl

lemma runBenchmark_tokensSaved (est : MCPTool → Int) (scenario : String)
    (catalogs : List (String × OpenAPISpec)) :
    (runBenchmark est scenario catalogs).tokensSaved =
      (runBenchmark est scenario catalogs).fullExpansionTokens -
        metaToolsTokensSum est := rfl

/-- Claim C6 (amended): `percentageSaved = 0` exactly when the expansion total
is not positive (in particular the empty-catalog case `expansionTokens = 0`,
with no division error ever raised) *or* `tokensSaved = 0` — the latter also
occurs with positive `expansionTokens` when the expansion total exactly
equals the meta-tools total, so `percentageSaved = 0` does not force
`expansionTokens = 0`. -/
theorem percentageSaved_eq_zero_iff (est : MCPTool → Int) (scenario : String)
    (catalogs : List (String × OpenAPISpec)) :
    (runBenchmark est scenario catalogs).percentageSaved = 0 ↔
      (¬ 0 < (runBenchmark est scenario catalogs).fullExpansionTokens ∨
        (runBenchmark est scenario catalogs).tokensSaved = 0) := by
  rw [runBenchmark_percentageSaved]
  by_cases h : (runBenchmark est scenario catalogs).fullExpansionTokens > 0
  · rw [if_pos h]
    constructor
    · intro h0
      rcases mul_eq_zero.mp h0 with hdiv | h100
      · rcases div_eq_zero_iff.mp hdiv with hnum | hden
        · exact Or.inr (by exact_mod_cast hnum)
        · exfalso
          have hz : (runBenchmark est scenario catalogs).fullExpansionTokens = 0 := by
            exact_mod_cast hden
          omega
      · norm_num at h100
    · rintro (hc | hsaved)
      · exact absurd h hc
      · rw [hsaved]
        norm_num
  · rw [if_neg h]
    simp [h]

/-- An operation with a `k`-character description and no parameters. -/
def padOp (k : Nat) : OpenAPIOperation :=
  { description := some (String.mk (List.replicate k 'x')) }

/-- A six-operation catalog each of whose normalized tools measures exactly
71 heuristic tokens, so that the full-expansion total is exactly the
426-token meta-tools total. -/
def breakEvenSpec : OpenAPISpec :=
  { openapi := "3.0.0"
    info := { title := "BreakEven", version := "1.0.0" }
    paths := [("/a", [("get", padOp 300)]), ("/b", [("get", padOp 300)]),
              ("/c", [("get", padOp 300)]), ("/d", [("get", padOp 300)]),
              ("/e", [("get", padOp 300)]), ("/f", [("get", padOp 300)])] }

/-- Claim C6 (counterexample): on the concrete six-operation catalog whose
expansion total is exactly the meta-tools total, `percentageSaved = 0` while
`expansionTokens = 426 ≠ 0` — refuting "whenever `percentageSaved = 0` it
must be that `expansionTokens = 0`". -/
theorem percentageSaved_zero_with_positive_expansion :
    (runBenchmark countToolTokens "BreakEven"
      [("BreakEven", breakEvenSpec)]).percentageSaved = 0 ∧
    (runBenchmark countToolTokens "BreakEven"
      [("BreakEven", breakEvenSpec)]).fullExpansionTokens ≠ 0 := by
  have hboth : (runBenchmark countToolTokens "BreakEven"
        [("BreakEven", breakEvenSpec)]).tokensSaved = 0 ∧
      (runBenchmark countToolTokens "BreakEven"
        [("BreakEven", breakEvenSpec)]).fullExpansionTokens = 426 := by
    rw [countToolTokens_eq_natFormula]
    decide
  constructor
  · rw [runBenchmark_percentageSaved, hboth.1, hboth.2]
    norm_num
  · rw [hboth.2]
    norm_num

/-- Claim C10: since the four fixed meta-tool definitions have strictly
positive total token cost, every `BenchmarkResult` has
`percentageSaved < 100`: with positive expansion, `tokensSaved` is strictly
smaller than `expansionTokens`, and otherwise `percentageSaved = 0 < 100`. -/
theorem percentageSaved_lt_100 (est : MCPTool → Int) (scenario : String)
    (catalogs : List (String × OpenAPISpec))
    (hmeta : 0 < metaToolsTokensSum est) :
    (runBenchmark est scenario catalogs).percentageSaved < 100 := by
  rw [runBenchmark_percentageSaved]
  by_cases h : (runBenchmark est scenario catalogs).fullExpansionTokens > 0
  · rw [if_pos h]
    have hsaved : (runBenchmark est scenario catalogs).tokensSaved <
        (runBenchmark est scenario catalogs).fullExpansionTokens := by
      rw [runBenchmark_tokensSaved]
      omega
    have hfq : (0 : ℚ) <
        ((runBenchmark est scenario catalogs).fullExpansionTokens : ℚ) := by
      exact_mod_cast h
    have hlt : ((runBenchmark est scenario catalogs).tokensSaved : ℚ) /
        ((runBenchmark est scenario catalogs).fullExpansionTokens : ℚ) < 1 := by
      rw [div_lt_one hfq]
      exact_mod_cast hsaved
    calc ((runBenchmark est scenario catalogs).tokensSaved : ℚ) /
        ((runBenchmark est scenario catalogs).fullExpansionTokens : ℚ) * 100 <
        1 * 100 := mul_lt_mul_of_pos_right hlt (by norm_num)
    _ = 100 := by norm_num
  · rw [if_neg h]
    norm_num

/-- Witness for **C10**: the hypothesis holds for the repository's own
heuristic estimator, whose meta-tools total is 426. -/
theorem percentageSaved_lt_100_witness :
    (runBenchmark countToolTokens "BreakEven"
      [("BreakEven", breakEvenSpec)]).percentageSaved < 100 :=
  percentageSaved_lt_100 countToolTokens "BreakEven" [("BreakEven", breakEvenSpec)]
    (by rw [countToolTokens_eq_natFormula]; decide)

/-! ## Counting machinery for the synthetic generator round-trip (C5) -/

/-- Number of non-`parameters` verb entries in one path item. -/
def verbCount (inner : List (String × OpenAPIOperation)) : Nat :=
  inner.countP (fun me => decide (me.1 ≠ "parameters"))

/-- Number of tools the normalizer produces from a `paths` record. -/
def toolCount (paths : List (String × List (String × OpenAPIOperation))) : Nat :=
  (paths.map (fun pe => verbCount pe.2)).sum

/-- The `(path, verb)` pairs present in a `paths` record. -/
def pathKeys (paths : List (String × List (String × OpenAPIOperation))) :
    List (String × String) :=
  paths.flatMap (fun pe => pe.2.map (fun me => (pe.1, me.1)))

lemma toolCount_cons (pe : String × List (String × OpenAPIOperation))
    (rest : List (String × List (String × OpenAPIOperation))) :
    toolCount (pe :: rest) = verbCount pe.2 + toolCount rest := by
  simp [toolCount]

lemma pathKeys_cons (pe : String × List (String × OpenAPIOperation))
    (rest : List (String × List (String × OpenAPIOperation))) :
    pathKeys (pe :: rest) = pe.2.map (fun me => (pe.1, me.1)) ++ pathKeys rest := by
  simp [pathKeys]

lemma pathKeys_append (a b : List (String × List (String × OpenAPIOperation))) :
    pathKeys (a ++ b) = pathKeys a ++ pathKeys b := by
  simp [pathKeys]

lemma length_filterMap_tools (p : String)
    (inner : List (String × OpenAPIOperation)) :
    (inner.filterMap (fun me =>
      if me.1 = "parameters" then none
      else some (mkTool p me.1 me.2))).length = verbCount inner := by
  induction inner with
  | nil => rfl
  | cons me rest ih =>
    by_cases h : me.1 = "parameters" <;>
      simp [List.filterMap_cons, h, verbCount, List.countP_cons, ih]

/-- The normalizer produces exactly one tool per non-`parameters`
`(path, verb)` entry. -/
lemma length_openApiToMcpTools (spec : OpenAPISpec) :
    (openApiToMcpTools spec).length = toolCount spec.paths := by
  rw [openApiToMcpTools]
  generalize spec.paths = ps
  induction ps with
  | nil => rfl
  | cons pe rest ih =>
    simp only [List.flatMap_cons, List.length_append, ih, toolCount_cons,
      length_filterMap_tools]

lemma any_fst_iff {β : Type} (l : List (String × β)) (p : String) :
    l.any (fun pe => pe.1 = p) = true ↔ p ∈ l.map Prod.fst := by
  simp only [List.any_eq_true, decide_eq_true_eq, List.mem_map]

lemma setVerb_fresh (inner : List (String × OpenAPIOperation)) (m : String)
    (op : OpenAPIOperation) (h : m ∉ inner.map Prod.fst) :
    setVerb inner m op = inner ++ [(m, op)] := by
  rw [setVerb, if_neg]
  simp only [List.any_eq_true, decide_eq_true_eq, not_exists, not_and]
  intro me hme hmeq
  exact h (List.mem_map.mpr ⟨me, hme, hmeq⟩)

lemma mem_fst_setVerb (inner : List (String × OpenAPIOperation)) (m v : String)
    (op : OpenAPIOperation) :
    v ∈ (setVerb inner m op).map Prod.fst ↔ v ∈ inner.map Prod.fst ∨ v = m := by
  by_cases h : m ∈ inner.map Prod.fst
  · have hany : inner.any (fun me => me.1 = m) = true := (any_fst_iff inner m).mpr h
    rw [setVerb, if_pos hany]
    have hfst : (inner.map (fun me => if me.1 = m then (m, op) else me)).map Prod.fst
        = inner.map Prod.fst := by
      rw [List.map_map]
      apply List.map_congr_left
      intro me _
      by_cases hme : me.1 = m
      · simp [Function.comp, hme]
      · simp [Function.comp, hme]
    rw [hfst]
    constructor
    · exact Or.inl
    · rintro (hv | rfl)
      · exact hv
      · exact h
  · rw [setVerb_fresh inner m op h]
    simp [List.map_append, List.mem_append]

lemma verbCount_setVerb_fresh (inner : List (String × OpenAPIOperation))
    (m : String) (op : OpenAPIOperation) (hfresh : m ∉ inner.map Prod.fst)
    (hm : m ≠ "parameters") :
    verbCount (setVerb inner m op) = verbCount inner + 1 := by
  rw [setVerb_fresh _ _ _ hfresh, verbCount, List.countP_append]
  simp [verbCount, List.countP_cons, hm]

lemma mem_pathKeys_setOp (paths : List (String × List (String × OpenAPIOperation)))
    (p m : String) (op : OpenAPIOperation) (k : String × String) :
    k ∈ pathKeys (setOp paths p m op) ↔ k ∈ pathKeys paths ∨ k = (p, m) := by
  rw [setOp]
  by_cases h : paths.any (fun pe => pe.1 = p) = true
  · rw [if_pos h]
    have hp : p ∈ paths.map Prod.fst := (any_fst_iff paths p).mp h
    simp only [pathKeys, List.mem_flatMap]
    constructor
    · rintro ⟨pe', hpe', hk⟩
      obtain ⟨pe, hpe, rfl⟩ := List.mem_map.mp hpe'
      by_cases hpeq : pe.1 = p
      · rw [if_pos hpeq] at hk
        simp only [List.mem_map] at hk
        obtain ⟨me, hme, rfl⟩ := hk
        have hv : me.1 ∈ (setVerb pe.2 m op).map Prod.fst :=
          List.mem_map.mpr ⟨me, hme, rfl⟩
        rcases (mem_fst_setVerb _ _ _ _).mp hv with hvv | rfl
        · left
          obtain ⟨me', hme', hfst⟩ := List.mem_map.mp hvv
          exact ⟨pe, hpe, List.mem_map.mpr ⟨me', hme', by rw [hfst]⟩⟩
        · right
          rw [hpeq]
      · rw [if_neg hpeq] at hk
        exact Or.inl ⟨pe, hpe, hk⟩
    · rintro (⟨pe, hpe, hk⟩ | rfl)
      · refine ⟨if pe.1 = p then (pe.1, setVerb pe.2 m op) else pe,
          List.mem_map.mpr ⟨pe, hpe, rfl⟩, ?_⟩
        by_cases hpeq : pe.1 = p
        · rw [if_pos hpeq]
          simp only [List.mem_map] at hk ⊢
          obtain ⟨me, hme, rfl⟩ := hk
          have hv : me.1 ∈ (setVerb pe.2 m op).map Prod.fst :=
            (mem_fst_setVerb _ _ _ _).mpr (Or.inl (List.mem_map.mpr ⟨me, hme, rfl⟩))
          obtain ⟨me', hme', hfst⟩ := List.mem_map.mp hv
          exact ⟨me', hme', by rw [hfst]⟩
        · rw [if_neg hpeq]
          exact hk
      · obtain ⟨pe, hpe, hpeq⟩ := List.mem_map.mp hp
        refine ⟨if pe.1 = p then (pe.1, setVerb pe.2 m op) else pe,
          List.mem_map.mpr ⟨pe, hpe, rfl⟩, ?_⟩
        rw [if_pos hpeq]
        have hv : m ∈ (setVerb pe.2 m op).map Prod.fst :=
          (mem_fst_setVerb _ _ _ _).mpr (Or.inr rfl)
        obtain ⟨me', hme', hfst⟩ := List.mem_map.mp hv
        simp only [List.mem_map]
        exact ⟨me', hme', by rw [hfst, hpeq]⟩
  · rw [if_neg h, pathKeys_append]
    simp [pathKeys]

lemma fst_setOp (paths : List (String × List (String × OpenAPIOperation)))
    (p m : String) (op : OpenAPIOperation) :
    (setOp paths p m op).map Prod.fst =
      if p ∈ paths.map Prod.fst then paths.map Prod.fst
      else paths.map Prod.fst ++ [p] := by
  rw [setOp]
  by_cases h : paths.any (fun pe => pe.1 = p) = true
  · rw [if_pos h, if_pos ((any_fst_iff paths p).mp h), List.map_map]
    apply List.map_congr_left
    intro pe _
    by_cases hpe : pe.1 = p <;> simp [Function.comp, hpe]
  · rw [if_neg h, if_neg (fun hmem => h ((any_fst_iff paths p).mpr hmem)),
      List.map_append]
    simp

lemma toolCount_mapSetVerb (paths : List (String × List (String × OpenAPIOperation)))
    (p m : String) (op : OpenAPIOperation) (hm : m ≠ "parameters")
    (hfresh : (p, m) ∉ pathKeys paths) (hnd : (paths.map Prod.fst).Nodup) :
    toolCount (paths.map (fun pe =>
      if pe.1 = p then (pe.1, setVerb pe.2 m op) else pe)) =
      toolCount paths + (if p ∈ paths.map Prod.fst then 1 else 0) := by
  induction paths with
  | nil => simp [toolCount]
  | cons pe rest ih =>
    rw [List.map_cons] at hnd
    obtain ⟨hhead, hnd'⟩ := List.nodup_cons.mp hnd
    rw [pathKeys_cons] at hfresh
    have hfr1 : (p, m) ∉ pe.2.map (fun me => (pe.1, me.1)) := fun hk =>
      hfresh (List.mem_append_left _ hk)
    have hfr2 : (p, m) ∉ pathKeys rest := fun hk =>
      hfresh (List.mem_append_right _ hk)
    by_cases hpe : pe.1 = p
    · have hrest : p ∉ rest.map Prod.fst := hpe ▸ hhead
      have hmapg : rest.map (fun pe' =>
          if pe'.1 = p then (pe'.1, setVerb pe'.2 m op) else pe') = rest := by
        have hid : ∀ pe' ∈ rest, (if pe'.1 = p then (pe'.1, setVerb pe'.2 m op)
            else pe') = id pe' := by
          intro pe' h'
          rw [if_neg, id]
          intro hq
          exact hrest (List.mem_map.mpr ⟨pe', h', hq⟩)
        rw [List.map_congr_left hid, List.map_id]
      have hmfresh : m ∉ pe.2.map Prod.fst := by
        intro hmm
        obtain ⟨me, hme, hq⟩ := List.mem_map.mp hmm
        exact hfr1 (List.mem_map.mpr ⟨me, hme, by rw [hq, hpe]⟩)
      rw [List.map_cons, if_pos hpe, hmapg, toolCount_cons, toolCount_cons,
        verbCount_setVerb_fresh _ _ _ hmfresh hm]
      have hmem : p ∈ List.map Prod.fst (pe :: rest) := by
        rw [List.map_cons]
        exact List.mem_cons.mpr (Or.inl hpe.symm)
      rw [if_pos hmem]
      omega
    · have hfst : p ∈ (pe :: rest).map Prod.fst ↔ p ∈ rest.map Prod.fst := by
        simp only [List.map_cons, List.mem_cons]
        constructor
        · rintro (rfl | hr)
          · exact absurd rfl hpe
          · exact hr
        · exact Or.inr
      rw [List.map_cons, if_neg hpe, toolCount_cons, toolCount_cons,
        ih hfr2 hnd']
      by_cases hp : p ∈ rest.map Prod.fst
      · rw [if_pos hp, if_pos (hfst.mpr hp)]
        omega
      · rw [if_neg hp, if_neg (fun hq => hp (hfst.mp hq))]
        omega

lemma toolCount_setOp (paths : List (String × List (String × OpenAPIOperation)))
    (p m : String) (op : OpenAPIOperation) (hm : m ≠ "parameters")
    (hfresh : (p, m) ∉ pathKeys paths) (hnd : (paths.map Prod.fst).Nodup) :
    toolCount (setOp paths p m op) = toolCount paths + 1 := by
  rw [setOp]
  by_cases h : paths.any (fun pe => pe.1 = p) = true
  · rw [if_pos h, toolCount_mapSetVerb paths p m op hm hfresh hnd,
      if_pos ((any_fst_iff paths p).mp h)]
  · rw [if_neg h]
    have happ : toolCount (paths ++ [(p, [(m, op)])]) =
        toolCount paths + toolCount [(p, [(m, op)])] := by
      simp [toolCount]
    rw [happ]
    simp [toolCount, verbCount, hm]

/-! ## Injectivity of the synthesized `(path, verb)` pairs -/

/-- Decimal value of a digit string (inverse of `natDigits`). -/
def digitsVal (cs : List Char) : Nat :=
  cs.foldl (fun a c => a * 10 + (c.toNat - 48)) 0

lemma digitChar_toNat (d : Nat) (hd : d < 10) : (digitChar d).toNat = 48 + d := by
  have h : d = 0 ∨ d = 1 ∨ d = 2 ∨ d = 3 ∨ d = 4 ∨ d = 5 ∨ d = 6 ∨ d = 7 ∨
      d = 8 ∨ d = 9 := by omega
  rcases h with rfl|rfl|rfl|rfl|rfl|rfl|rfl|rfl|rfl|rfl <;> decide

lemma digitsVal_concat (cs : List Char) (c : Char) :
    digitsVal (cs ++ [c]) = digitsVal cs * 10 + (c.toNat - 48) := by
  rw [digitsVal, List.foldl_append]
  rfl

lemma digitsVal_natDigits (n : Nat) : digitsVal (natDigits n) = n := by
  induction n using Nat.strong_induction_on with
  | _ n ih =>
    rw [natDigits]
    by_cases h : n < 10
    · rw [dif_pos h]
      show 0 * 10 + ((digitChar n).toNat - 48) = n
      rw [digitChar_toNat n h]
      omega
    · rw [dif_neg h, digitsVal_concat,
        ih (n / 10) (Nat.div_lt_self (by omega) (by omega)),
        digitChar_toNat (n % 10) (Nat.mod_lt _ (by omega))]
      omega

lemma natDigits_inj {m n : Nat} (h : natDigits m = natDigits n) : m = n := by
  have h' := congrArg digitsVal h
  rwa [digitsVal_natDigits, digitsVal_natDigits] at h'

lemma natToString_data (n : Nat) : (natToString n).data = natDigits n := rfl

lemma natDigits_affix_inj (pre suf : List Char) {r r' : Nat}
    (h : pre ++ (natDigits r ++ suf) = pre ++ (natDigits r' ++ suf)) : r = r' :=
  natDigits_inj (List.append_cancel_right (List.append_cancel_left h))

lemma synPathOf_inj (r r' s : Nat) (hs : s < 5)
    (h : synPathOf r s = synPathOf r' s) : r = r' := by
  have h5 : s = 0 ∨ s = 1 ∨ s = 2 ∨ s = 3 ∨ s = 4 := by omega
  have hd := congrArg String.data h
  rcases h5 with rfl|rfl|rfl|rfl|rfl
  · simp only [synPathOf, String.data_append, natToString_data] at hd
    exact natDigits_inj (List.append_cancel_left hd)
  all_goals {
    simp only [synPathOf, String.data_append, natToString_data,
      List.append_assoc] at hd
    exact natDigits_affix_inj _ _ hd
  }

lemma synMethodOf_inj (a b : Nat) (ha : a < 5) (hb : b < 5)
    (h : synMethodOf a = synMethodOf b) : a = b := by
  have ha' : a = 0 ∨ a = 1 ∨ a = 2 ∨ a = 3 ∨ a = 4 := by omega
  have hb' : b = 0 ∨ b = 1 ∨ b = 2 ∨ b = 3 ∨ b = 4 := by omega
  rcases ha' with rfl|rfl|rfl|rfl|rfl <;> rcases hb' with rfl|rfl|rfl|rfl|rfl <;>
    first
    | rfl
    | exact absurd h (by decide)

lemma synMethod_ne_parameters (i : Nat) : synMethod i ≠ "parameters" := by
  rw [synMethod]
  have h5 : i % 5 = 0 ∨ i % 5 = 1 ∨ i % 5 = 2 ∨ i % 5 = 3 ∨ i % 5 = 4 := by omega
  rcases h5 with h|h|h|h|h <;> rw [h] <;> decide

lemma synPair_inj {i j : Nat} (hpath : synPath i = synPath j)
    (hmethod : synMethod i = synMethod j) : i = j := by
  have hm : i % 5 = j % 5 :=
    synMethodOf_inj _ _ (Nat.mod_lt _ (by omega)) (Nat.mod_lt _ (by omega)) hmethod
  have hr : i / 5 = j / 5 := by
    rw [synPath, synPath, hm] at hpath
    exact synPathOf_inj _ _ _ (Nat.mod_lt _ (by omega)) hpath
  omega

/-! ## The generator loop invariant and claim C5 -/

lemma synPaths_succ (n : Nat) :
    synPaths (n + 1) = setOp (synPaths n) (synPath n) (synMethod n) (synOp n) := by
  rw [synPaths, synPaths, List.range_succ, List.foldl_append]
  rfl

lemma synPaths_inv (n : Nat) :
    toolCount (synPaths n) = n ∧ ((synPaths n).map Prod.fst).Nodup ∧
    ∀ k, k ∈ pathKeys (synPaths n) ↔
      ∃ i, i < n ∧ k = (synPath i, synMethod i) := by
  induction n with
  | zero =>
    refine ⟨rfl, by simp [synPaths], fun k => ?_⟩
    simp [synPaths, pathKeys]
  | succ n ih =>
    obtain ⟨hc, hnd, hmem⟩ := ih
    have hfresh : (synPath n, synMethod n) ∉ pathKeys (synPaths n) := by
      intro hk
      obtain ⟨i, hi, hpair⟩ := (hmem _).mp hk
      have heq : n = i := synPair_inj (congrArg Prod.fst hpair)
        (congrArg Prod.snd hpair)
      omega
    refine ⟨?_, ?_, fun k => ?_⟩
    · rw [synPaths_succ,
        toolCount_setOp _ _ _ _ (synMethod_ne_parameters n) hfresh hnd, hc]
    · rw [synPaths_succ, fst_setOp]
      by_cases hp : synPath n ∈ (synPaths n).map Prod.fst
      · rw [if_pos hp]
        exact hnd
      · rw [if_neg hp]
        simp [List.nodup_append, hnd, hp]
    · rw [synPaths_succ, mem_pathKeys_setOp]
      constructor
      · rintro (hk | rfl)
        · obtain ⟨i, hi, rfl⟩ := (hmem k).mp hk
          exact ⟨i, by omega, rfl⟩
        · exact ⟨n, by omega, rfl⟩
      · rintro ⟨i, hi, rfl⟩
        by_cases hi' : i < n
        · exact Or.inl ((hmem _).mpr ⟨i, hi', rfl⟩)
        · have hin : i = n := by omega
          subst hin
          exact Or.inr rfl

/-- Claim C5: `generate(0)` normalizes to an empty tool sequence and, for every
`N ≥ 0`, normalizing the synthetic catalog `generate(N)` yields exactly `N`
tool definitions: the synthesized `(path, verb)` pairs are pairwise distinct
(no entry of the path-to-verb map is overwritten by a later index), and none
of them is the verb-less `parameters` block, so each pair maps to exactly
one tool. -/
theorem generateSyntheticSpec_roundtrip (N : Nat) :
    (openApiToMcpTools (generateSyntheticSpec N)).length = N ∧
    (∀ i j, i < N → j < N → i ≠ j →
      (synPath i, synMethod i) ≠ (synPath j, synMethod j)) ∧
    (∀ i, i < N → synMethod i ≠ "parameters") := by
  refine ⟨?_, fun i j _ _ hne hpair => ?_, fun i _ => synMethod_ne_parameters i⟩
  · rw [length_openApiToMcpTools]
    exact (synPaths_inv N).1
  · exact hne (synPair_inj (congrArg Prod.fst hpair) (congrArg Prod.snd hpair))

/-- Witness for **C5** at the concrete size `N = 7` and indices `1, 2, 3`. -/
theorem generateSyntheticSpec_roundtrip_witness :
    (openApiToMcpTools (generateSyntheticSpec 7)).length = 7 ∧
    (synPath 1, synMethod 1) ≠ (synPath 2, synMethod 2) ∧
    synMethod 3 ≠ "parameters" :=
  ⟨(generateSyntheticSpec_roundtrip 7).1,
   (generateSyntheticSpec_roundtrip 7).2.1 1 2 (by omega) (by omega) (by omega),
   (generateSyntheticSpec_roundtrip 7).2.2 3 (by omega)⟩

end Airlock
